import Mathlib

set_option maxRecDepth 100000

/-!
Verification of the caregiver-demo heuristics in `src/app.py`.

The embedding works over Lean `String`/`List Char`. Python's `re` searches are
modelled by explicit backtracking matchers with Python's leftmost / greedy
semantics; `str.lower`, `str.upper` and the `\w`/`\s`/`\d` character classes
are modelled over ASCII (all strings appearing in the program are ASCII apart
from fixed emoji/dash literals, which no character class touches).
Python's fallible operations (the severity-label dict lookup) return `Option`.
-/

-- ## Character classes (ASCII models of Python `\d`, `\s`, `\w`, lower/upper)

def isDigitC (c : Char) : Bool := 48 ≤ c.toNat && c.toNat ≤ 57

def isSpaceC (c : Char) : Bool :=
  c = ' ' || c = '\t' || c = '\n' || c = '\r' || c = Char.ofNat 11 || c = Char.ofNat 12

def isWordC (c : Char) : Bool := c.isAlpha || isDigitC c || c = '_'

def lowerChar (c : Char) : Char :=
  if 65 ≤ c.toNat ∧ c.toNat ≤ 90 then Char.ofNat (c.toNat + 32) else c

def upperChar (c : Char) : Char :=
  if 97 ≤ c.toNat ∧ c.toNat ≤ 122 then Char.ofNat (c.toNat - 32) else c

def lowerStr (s : String) : String := String.mk (s.data.map lowerChar)

def upperStr (s : String) : String := String.mk (s.data.map upperChar)

-- ## Substring search (Python's `needle in haystack`)

def leadMatch : List Char → List Char → Bool
  | [], _ => true
  | _ :: _, [] => false
  | a :: as, b :: bs => a = b && leadMatch as bs

def hasSeg (n : List Char) : List Char → Bool
  | [] => n.isEmpty
  | c :: s => leadMatch n (c :: s) || hasSeg n s

def occursIn (needle hay : String) : Bool := hasSeg needle.data hay.data

def startsW (p s : String) : Bool := leadMatch p.data s.data

-- ## String utilities mirroring Python `"sep".join`, `str.strip`, line counting

def joinWith (sep : String) : List String → String
  | [] => ""
  | [x] => x
  | x :: y :: xs => x ++ sep ++ joinWith sep (y :: xs)

def stripStr (s : String) : String :=
  String.mk (((s.data.dropWhile isSpaceC).reverse.dropWhile isSpaceC).reverse)

/-- Number of newline-separated lines of a rendered text. -/
def lineCount (s : String) : Nat := s.data.count '\n' + 1

def natOfDigits (ds : List Char) : Nat := ds.foldl (fun a c => a * 10 + (c.toNat - 48)) 0

-- ## `_find_bp`: leftmost match of the regex from src/app.py line 67,
--    r"\b(\d{2,3})\s*/\s*(\d{2,3})\b", with Python's greedy backtracking.

def takeDigits : Nat → List Char → Option (List Char × List Char)
  | 0, s => some ([], s)
  | _ + 1, [] => none
  | n + 1, c :: s =>
      if isDigitC c then (takeDigits n s).map (fun p => (c :: p.1, p.2)) else none

def takeSpaces : List Char → List Char × List Char
  | [] => ([], [])
  | c :: s =>
      if isSpaceC c then
        let p := takeSpaces s
        (c :: p.1, p.2)
      else ([], c :: s)

/-- Trailing-context check for `\b` after the final digit group: the next
character, if any, is not a word character. -/
def boundaryOK : List Char → Bool
  | [] => true
  | c :: _ => !isWordC c

/-- Matches `\d{2,3}\b` greedily (three digits first, then two). -/
def matchTail2 (s : List Char) : Option (List Char) :=
  match takeDigits 3 s with
  | some (d, r) =>
      if boundaryOK r then some d
      else
        match takeDigits 2 s with
        | some (d2, r2) => if boundaryOK r2 then some d2 else none
        | none => none
  | none =>
      match takeDigits 2 s with
      | some (d2, r2) => if boundaryOK r2 then some d2 else none
      | none => none

/-- After the first digit group `d1`, matches `\s*/\s*(\d{2,3})\b` and returns
(systolic, diastolic, whole match). -/
def matchRest (d1 : List Char) (s : List Char) : Option (Nat × Nat × List Char) :=
  let p1 := takeSpaces s
  match p1.2 with
  | c :: s2 =>
      if c = '/' then
        let p2 := takeSpaces s2
        match matchTail2 p2.2 with
        | some d2 => some (natOfDigits d1, natOfDigits d2, d1 ++ p1.1 ++ '/' :: (p2.1 ++ d2))
        | none => none
      else none
  | [] => none

/-- The whole pattern at one position (the leading `\b` is checked by the
caller): `(\d{2,3})\s*/\s*(\d{2,3})\b`, first group greedy. -/
def matchAt (s : List Char) : Option (Nat × Nat × List Char) :=
  match takeDigits 3 s with
  | some (d1, r) =>
      match matchRest d1 r with
      | some m => some m
      | none =>
          match takeDigits 2 s with
          | some (d1b, r2) => matchRest d1b r2
          | none => none
  | none =>
      match takeDigits 2 s with
      | some (d1b, r2) => matchRest d1b r2
      | none => none

/-- `re.search` scan: leftmost position wins; `prev` says whether the previous
character is a word character (for the leading `\b`; the pattern starts with a
digit, so `\b` holds exactly when `prev` is false). -/
def searchBP : Bool → List Char → Option (Nat × Nat × List Char)
  | _, [] => none
  | prev, c :: s =>
      match (if prev then none else matchAt (c :: s)) with
      | some m => some m
      | none => searchBP (isWordC c) s

def _find_bp (text : String) : Option (Nat × Nat × String) :=
  (searchBP false text.data).map (fun m => (m.1, m.2.1, String.mk m.2.2))

-- sanity examples (checked by the kernel)
example : _find_bp "Blood pressure at 11 AM was 92/58." = some (92, 58, "92/58") := by decide
example : _find_bp "1234/56" = none := by decide
example : _find_bp "bp 92 / 58 and later 200/100" = some (92, 58, "92 / 58") := by decide
example : _find_bp "" = none := by decide

-- ## `_find_temp`: leftmost match of r"\b(\d{2,3}\.?\d?)\s*°?\s*f\b" on the
--    lowered text (src/app.py line 74).  Unused by the five generators, kept
--    because the extractor set is part of the component.

/-- Matches `\s*°?\s*f\b`, returning (consumed, rest). -/
def tempTailStep (w1 : List Char) (deg : List Char) (s2 : List Char) :
    Option (List Char × List Char) :=
  let p2 := takeSpaces s2
  match p2.2 with
  | 'f' :: s4 =>
      if boundaryOK s4 then some (w1 ++ deg ++ p2.1 ++ ['f'], s4) else none
  | _ => none

def tempTail (s : List Char) : Option (List Char × List Char) :=
  let p1 := takeSpaces s
  match p1.2 with
  | '°' :: s2 =>
      match tempTailStep p1.1 ['°'] s2 with
      | some r => some r
      | none => tempTailStep p1.1 [] p1.2
  | _ => tempTailStep p1.1 [] p1.2

/-- Greedy candidates for `\.?\d?` in priority order: (consumed, rest). -/
def optDotDigit (s : List Char) : List (List Char × List Char) :=
  match s with
  | '.' :: rest =>
      (match rest with
       | d :: s2 =>
           if isDigitC d then [(['.', d], s2), (['.'], rest), ([], s)]
           else [(['.'], rest), ([], s)]
       | [] => [(['.'], rest), ([], s)])
  | d :: s2 => if isDigitC d then [([d], s2), ([], s)] else [([], s)]
  | [] => [([], s)]

def firstSome {α β : Type} (f : α → Option β) : List α → Option β
  | [] => none
  | x :: xs =>
      match f x with
      | some r => some r
      | none => firstSome f xs

def tempNum (n : Nat) (s : List Char) : Option (List Char) :=
  match takeDigits n s with
  | some (ds, r) =>
      firstSome (fun p => (tempTail p.2).map (fun q => ds ++ p.1 ++ q.1)) (optDotDigit r)
  | none => none

def tempMatchAt (s : List Char) : Option (List Char) :=
  match tempNum 3 s with
  | some m => some m
  | none => tempNum 2 s

def searchTemp : Bool → List Char → Option (List Char)
  | _, [] => none
  | prev, c :: s =>
      match (if prev then none else tempMatchAt (c :: s)) with
      | some m => some m
      | none => searchTemp (isWordC c) s

def _find_temp (text : String) : Option String :=
  (searchTemp false (lowerStr text).data).map (fun l => String.mk l)

example : _find_temp "Temp was 101.2F this morning" = some "101.2f" := by decide
example : _find_temp "" = none := by decide
example : _find_temp "99 °F" = some "99 °f" := by decide

-- ## `_contains_any` (src/app.py line 79)

def _contains_any (text : String) (phrases : List String) : List String :=
  phrases.filter (fun p => occursIn p (lowerStr text))

-- ## `demo_risk_radar` (src/app.py lines 83-134)

/-- The `risks` list built by `demo_risk_radar`, in program order. -/
def riskFindings (note_text : String) : List (String × String × String) :=
  let t := lowerStr note_text
  (match _find_bp note_text with
   | some (sys, dia, raw) =>
       if sys ≤ 90 ∨ dia ≤ 60 then
         [("Low blood pressure reading", "Evidence: \x27" ++ raw ++ "\x27", "monitor_closely")]
       else []
   | none => []) ++
  (if occursIn "dizzy" t || occursIn "dizziness" t || occursIn "lightheaded" t then
     [("Dizziness on standing", "Evidence: \x27dizzy / standing\x27 mentioned", "monitor_closely")]
   else []) ++
  (if occursIn "short of breath" t || occursIn "difficulty breathing" t then
     [("Breathing difficulty", "Evidence: \x27short of breath\x27 mentioned", "consider_urgent")]
   else []) ++
  (if occursIn "chest pain" t || occursIn "fainted" t || occursIn "passed out" t then
     [("Potential emergency symptom", "Evidence: chest pain/fainting mentioned", "consider_urgent")]
   else []) ++
  (if occursIn "fell" t || occursIn "trip" t || occursIn "walker" t then
     [("Fall risk", "Evidence: fall/trip/walker mentioned", "monitor_closely")]
   else []) ++
  (if occursIn "very little water" t || occursIn "drank less" t || occursIn "dehydr" t then
     [("Low hydration risk", "Evidence: low water intake mentioned", "monitor")]
   else [])

/-- The urgency aggregation of src/app.py lines 108-113, exactly as written:
`moderate` needs a `monitor_closely` finding; `high` overrides on
`consider_urgent`. -/
def urgencyOf (risks : List (String × String × String)) : String :=
  if risks.isEmpty then "low"
  else
    let u := if risks.any (fun r => r.2.2 = "monitor_closely") then "moderate" else "low"
    if risks.any (fun r => r.2.2 = "consider_urgent") then "high" else u

/-- The severity-label dict of src/app.py line 122; a Python `KeyError` is
`none`. -/
def tagOf (level : String) : Option String :=
  if level = "monitor" then some "Monitor"
  else if level = "monitor_closely" then some "Monitor closely"
  else if level = "consider_urgent" then some "Consider urgent care"
  else none

def riskLines : List (String × String × String) → Option (List String)
  | [] => some []
  | (title, ev, level) :: rest =>
      match tagOf level with
      | none => none
      | some tag =>
          match riskLines rest with
          | none => none
          | some ls => some (("- **" ++ title ++ "** — *" ++ tag ++ "*  \n  " ++ ev) :: ls)

def demo_risk_radar (note_text : String) : Option String :=
  let risks := riskFindings note_text
  let urgency := urgencyOf risks
  match riskLines risks with
  | none => none
  | some rendered =>
      some (joinWith "\n"
        (["## 🚦 Risk Radar (Demo Mode)",
          "**Urgency level:** **" ++ upperStr urgency ++ "**",
          ""] ++
         (if risks.isEmpty then ["- No clear risk signals detected from the note."]
          else "### Signals detected (non-diagnostic)" :: rendered) ++
         ["", "### What to do next (general)"] ++
         (if urgency = "high" then
            ["- Consider urgent medical care / call clinician, especially if symptoms worsen."]
          else
            ["- Monitor symptoms and repeat key measurements if available (e.g., BP).",
             "- Encourage hydration/food if appropriate and safe for the person."])))

example : riskFindings "drank less" =
    [("Low hydration risk", "Evidence: low water intake mentioned", "monitor")] := by decide
example : urgencyOf (riskFindings "drank less") = "low" := by decide
example : urgencyOf (riskFindings "chest pain and felt dizzy") = "high" := by decide
example : urgencyOf (riskFindings "") = "low" := by decide
example : urgencyOf (riskFindings "BP 85/55, felt dizzy and fell near the stairs") = "moderate" := by
  decide

-- ## `demo_action_planner` (src/app.py lines 136-179)

/-- Python's `xs or [d]` for the per-bucket generic fallback. -/
def orDefault (l d : List String) : List String := if l.isEmpty then d else l

def bullets (l : List String) : List String := l.map (fun a => "- " ++ a)

def demo_action_planner (note_text : String) : String :=
  let t := lowerStr note_text
  let actions_now :=
    (if occursIn "dizzy" t || occursIn "lightheaded" t then
       ["Help them stand slowly; ensure a safe path to prevent falls."] else []) ++
    (if (_find_bp note_text).isSome then
       ["Recheck blood pressure later if you have a monitor."] else []) ++
    (if occursIn "very little water" t || occursIn "drank less" t then
       ["Offer fluids in small amounts (if appropriate), and note intake."] else []) ++
    (if occursIn "skipped breakfast" t || occursIn "ate only" t then
       ["Offer a small, easy-to-eat meal/snack if appropriate."] else [])
  let monitor :=
    (if occursIn "dizzy" t || occursIn "lightheaded" t then
       ["Track when dizziness happens (standing, after meds, after meals)."] else []) ++
    (if (_find_bp note_text).isSome then
       ["Log BP with time and symptoms nearby."] else []) ++
    (if occursIn "very little water" t || occursIn "drank less" t then
       ["Urine frequency/color (if comfortable) as a hydration clue."] else []) ++
    (if occursIn "skipped breakfast" t || occursIn "ate only" t then
       ["Food intake today (rough estimate)."] else [])
  let confirm :=
    if occursIn "missed" t then
      ["Confirm which medication(s) were missed and when (write it down)."] else []
  let schedule :=
    ["Prepare a short update to share with family/other caregivers.",
     "If symptoms persist/worsen, contact clinician for guidance."]
  joinWith "\n"
    (["## ✅ Action Planner (Demo Mode)", "### Do now"] ++
     bullets (orDefault actions_now ["Ensure comfort and safety; address immediate needs."]) ++
     ["", "### Monitor"] ++
     bullets (orDefault monitor ["Track symptoms + timing through the day."]) ++
     ["", "### Confirm"] ++
     bullets (orDefault confirm ["Confirm meds taken/missed and any measurements taken."]) ++
     ["", "### Schedule / delegate"] ++
     bullets schedule)

-- ## `demo_doctor_brief` (src/app.py lines 181-218)

def demo_doctor_brief (note_text : String) : String :=
  let bp := _find_bp note_text
  let bp_line :=
    match bp with
    | some (_, _, raw) => "BP: " ++ raw ++ " (reported)"
    | none => "BP: not provided"
  let dizzy :=
    if occursIn "dizzy" (lowerStr note_text) then "Dizziness: yes (reported)"
    else "Dizziness: not reported"
  let missed :=
    if occursIn "missed" (lowerStr note_text) then "Missed medication dose: yes (reported)"
    else "Missed medication dose: not reported"
  joinWith "\n"
    (["## 🩺 Doctor Brief (Demo Mode)",
      "### Summary (4–6 sentences)",
      "Caregiver reports increased fatigue today with reduced intake/activity. " ++
        bp_line ++ ". " ++ dizzy ++ ". " ++ missed ++ ". " ++
        "Hydration appears reduced. Mood described as lower/withdrawn.",
      "",
      "### Pertinent positives"] ++
     (match bp with
      | some (_, _, raw) => ["- Low BP reading reported: " ++ raw]
      | none => []) ++
     (if occursIn "dizzy" (lowerStr note_text) then
        ["- Dizziness when standing reported"] else []) ++
     (if occursIn "missed" (lowerStr note_text) then
        ["- Missed a medication dose reported"] else []) ++
     (if occursIn "very little water" (lowerStr note_text) ||
         occursIn "drank less" (lowerStr note_text) then
        ["- Reduced hydration reported"] else []) ++
     ["",
      "### Questions for clinician",
      "- Could symptoms relate to hydration, medication timing, or blood pressure variability?",
      "- What parameters should trigger urgent evaluation (e.g., BP thresholds, worsening dizziness)?",
      "- Any recommended monitoring cadence for BP/symptoms over the next few days?",
      "",
      "### What to track before visit",
      "- BP readings with timestamps (if available)",
      "- Episodes of dizziness (timing, triggers, duration)",
      "- Food/fluid intake estimate",
      "- Meds taken/missed with approximate times"])

-- ## `demo_care_circle_msg` (src/app.py lines 220-238)

/-- The `msg` list assembled before the `msg[:7]` truncation, in program
order. -/
def careMsg (note_text tone : String) : List String :=
  ["Quick update:"] ++
  (if occursIn "dizzy" (lowerStr note_text) then
     ["- Had dizziness when standing today."] else []) ++
  (match _find_bp note_text with
   | some (_, _, raw) => ["- BP reading reported: " ++ raw ++ "."]
   | none => []) ++
  (if occursIn "missed" (lowerStr note_text) then
     ["- Missed at least one medication dose (noted)."] else []) ++
  ["- Next steps: encourage fluids/food if appropriate, recheck BP later, and monitor symptoms."] ++
  (if startsW "urgent" (lowerStr tone) then
     ["If symptoms worsen, we should contact clinician / consider urgent care."] else [])

/-- `"\n".join(msg[:7])` of src/app.py line 237. -/
def careBody (note_text tone : String) : String :=
  joinWith "\n" ((careMsg note_text tone).take 7)

def demo_care_circle_msg (note_text audience tone : String) : String :=
  joinWith "\n"
    ["## 👥 Care Circle Message (Demo Mode)",
     "**Audience:** " ++ audience ++ " | **Tone:** " ++ tone,
     "",
     careBody note_text tone]

-- ## `demo_caregiver_wellbeing` (src/app.py lines 240-262)

def burnout_phrases_list : List String :=
  ["exhaust", "overwhelm", "can\x27t", "tired", "stress", "burnout", "cry", "anxious"]

/-- Code-point lexicographic strict comparison of char lists (Python `<` on
`str`). -/
def strLtL : List Char → List Char → Bool
  | [], [] => false
  | [], _ :: _ => true
  | _ :: _, [] => false
  | a :: as, b :: bs =>
      if a.toNat < b.toNat then true
      else if b.toNat < a.toNat then false
      else strLtL as bs

def strLe (a b : String) : Bool := !strLtL b.data a.data

/-- Python's `sorted(set(xs))`: distinct elements in ascending code-point
order. -/
def sortedSet (xs : List String) : List String :=
  List.insertionSort (fun a b => strLe a b = true) xs.dedup

/-- The rendered strain-cue set of the Wellbeing generator (src/app.py line
247): `sorted(set(_contains_any(t, burnout_phrases)))`. -/
def strainCues (note_text : String) : List String :=
  sortedSet (_contains_any (lowerStr note_text) burnout_phrases_list)

def demo_caregiver_wellbeing (note_text : String) : String :=
  let t := lowerStr note_text
  let burnout_phrases := _contains_any t burnout_phrases_list
  joinWith "\n"
    (["## 🧘 Caregiver Wellbeing (Demo Mode)", "### Signals (only if present)"] ++
     (if !burnout_phrases.isEmpty then
        ["- Possible strain cues: " ++ joinWith ", " (sortedSet burnout_phrases)]
      else ["- No explicit caregiver strain language detected in the note."]) ++
     ["",
      "### 10-minute reset plan (practical)",
      "- Drink water + quick snack.",
      "- Send a 2-line status update to someone in the care circle.",
      "- Pick ONE task to do next; park the rest.",
      "",
      "### Delegate / share load",
      "- Ask someone to cover: a meal, a 30-minute visit, a pharmacy run, or a check-in call.",
      "- If nights are tough, rotate shifts (even 2–3 hour blocks).",
      "",
      "### Boundary reminder",
      "- You don’t have to do everything perfectly. You’re aiming for safety + consistency."])

example : strainCues "tired tired stressed" = ["stress", "tired"] := by decide
example : strainCues "" = [] := by decide
example : careMsg "dizzy missed bp 92\n\n\n/58" "Urgent (only if needed)" =
    ["Quick update:",
     "- Had dizziness when standing today.",
     "- BP reading reported: 92\n\n\n/58.",
     "- Missed at least one medication dose (noted).",
     "- Next steps: encourage fluids/food if appropriate, recheck BP later, and monitor symptoms.",
     "If symptoms worsen, we should contact clinician / consider urgent care."] := by decide
example : lineCount (careBody "dizzy missed bp 92\n\n\n/58" "Urgent (only if needed)") = 9 := by
  decide

-- ## Dispatch / fallback layer (src/app.py lines 268-305 and the per-tab
--    wiring at lines 343, 369, 396, 425, 461)

/-- Outcome of one call to the external model: generated text, or a failure
carrying `str(e)`. -/
inductive LLMResult where
  | success (text : String)
  | failure (err : String)

/-- `llm_available` (src/app.py lines 278-283): `mode` is the sidebar run-mode
string, `openai_loaded` whether the provider import succeeded, `api_key` the
`OPENAI_API_KEY` value (absent = `""`, whose Python truthiness is false). -/
def llm_available (mode : String) (openai_loaded : Bool) (api_key : String) : Bool :=
  if startsW "Force Demo" mode then false
  else if !openai_loaded then false
  else !(api_key = "")

/-- The quota/rate-limit classification of src/app.py line 303: known
substrings of the lowered error text. -/
def isQuotaError (e : String) : Bool :=
  let msg := lowerStr e
  occursIn "insufficient_quota" msg || occursIn "exceeded your current quota" msg ||
    occursIn "429" msg

/-- `call_llm_or_demo` (src/app.py lines 285-305). `demoOut` is
`demo_fn(*demo_args)`, evaluated only on the branches that call it (`none`
models a failure inside the demo generator itself). The result is `ok` text
shown to the user or `error` re-raised to the caller. -/
def call_llm_or_demo (mode : String) (openai_loaded : Bool) (api_key : String)
    (res : LLMResult) (demoOut : Option String) : Option (Except String String) :=
  if !llm_available mode openai_loaded api_key then demoOut.map Except.ok
  else
    match res with
    | .success t => some (Except.ok (stripStr t))
    | .failure e =>
        if isQuotaError e then demoOut.map Except.ok else some (Except.error e)

/-- The five tool kinds of the tabs. -/
inductive ReportKind where
  | riskRadar
  | actionPlanner
  | doctorBrief
  | careCircle
  | wellbeing

/-- The heuristic generator matching each kind, with the arguments the tabs
pass (the Wellbeing tab combines the note and the caregiver self-note,
src/app.py line 440). -/
def demoReport (k : ReportKind) (note audience tone caregiver_note : String) : Option String :=
  match k with
  | .riskRadar => demo_risk_radar note
  | .actionPlanner => some (demo_action_planner note)
  | .doctorBrief => some (demo_doctor_brief note)
  | .careCircle => some (demo_care_circle_msg note audience tone)
  | .wellbeing => some (demo_caregiver_wellbeing (note ++ "\n\nCaregiver note: " ++ caregiver_note))

/-- One user action on a tab: `call_llm_or_demo(prompt, demo_fn, *demo_args)`
with the demo generator matching the requested kind. -/
def dispatch (k : ReportKind) (mode : String) (openai_loaded : Bool) (api_key : String)
    (res : LLMResult) (note audience tone caregiver_note : String) :
    Option (Except String String) :=
  call_llm_or_demo mode openai_loaded api_key res (demoReport k note audience tone caregiver_note)

-- ## A definition following the words of the spec sentence behind claim C3
--    (the bare pattern `\d{2,3}/\d{2,3}`), for comparison with `_find_bp`.

/-- Follows the spec text for C3: does `\d{2,3}/\d{2,3}` (a 2-3 digit integer,
a slash, a 2-3 digit integer; no word boundaries, no whitespace) match at the
head of `s`? -/
def specBPHere (s : List Char) : Bool :=
  [3, 2].any (fun n1 => [3, 2].any (fun n2 =>
    match takeDigits n1 s with
    | some (_, r) =>
        match r with
        | '/' :: r2 => (takeDigits n2 r2).isSome
        | _ => false
    | none => false))

/-- Follows the spec text for C3: the note contains a match of
`\d{2,3}/\d{2,3}` somewhere. -/
def specBPExists : List Char → Bool
  | [] => false
  | c :: s => specBPHere (c :: s) || specBPExists s

example : specBPExists "1234/56".data = true := by decide
example : specBPExists "92/58".data = true := by decide
example : specBPExists "9/58".data = false := by decide

-- ## General lemmas about the string model

theorem charOfNat_toNat {n : Nat} (h : n < 55296) : (Char.ofNat n).toNat = n := by
  have h2 : n < 4294967296 := by omega
  simp only [Char.ofNat, Nat.isValidChar]
  rw [dif_pos (Or.inl h)]
  simp [Char.ofNatAux, Char.toNat, UInt32.toNat, Nat.mod_eq_of_lt h2]

theorem lowerChar_idem (c : Char) : lowerChar (lowerChar c) = lowerChar c := by
  unfold lowerChar
  split_ifs with h1 h2
  · have : (Char.ofNat (c.toNat + 32)).toNat = c.toNat + 32 := charOfNat_toNat (by omega)
    omega
  · rfl
  · rfl

theorem lowerStr_idem (s : String) : lowerStr (lowerStr s) = lowerStr s := by
  simp [lowerStr, Function.comp_def, lowerChar_idem]

theorem strData_append (a b : String) : (a ++ b).data = a.data ++ b.data := rfl

theorem leadMatch_iff (n : List Char) : ∀ h : List Char,
    leadMatch n h = true ↔ ∃ q, h = n ++ q := by
  induction n with
  | nil => intro h; simp only [leadMatch, List.nil_append, true_iff]; exact ⟨h, rfl⟩
  | cons a as ih =>
      intro h
      cases h with
      | nil => simp [leadMatch]
      | cons b bs =>
          simp only [leadMatch, Bool.and_eq_true, decide_eq_true_eq, ih bs]
          constructor
          · rintro ⟨rfl, q, rfl⟩; exact ⟨q, rfl⟩
          · rintro ⟨q, hq⟩
            cases hq
            exact ⟨rfl, q, rfl⟩

theorem hasSeg_iff (n : List Char) : ∀ h : List Char,
    hasSeg n h = true ↔ ∃ p q, h = p ++ n ++ q := by
  intro h
  induction h with
  | nil =>
      simp only [hasSeg, List.isEmpty_iff]
      constructor
      · rintro rfl; exact ⟨[], [], rfl⟩
      · rintro ⟨p, q, hpq⟩
        rcases List.append_eq_nil.mp (List.append_eq_nil.mp hpq.symm).1 with ⟨_, h2⟩
        exact h2
  | cons c s ih =>
      simp only [hasSeg, Bool.or_eq_true, leadMatch_iff, ih]
      constructor
      · rintro (⟨q, hq⟩ | ⟨p, q, hpq⟩)
        · exact ⟨[], q, by simpa using hq⟩
        · exact ⟨c :: p, q, by simp [hpq]⟩
      · rintro ⟨p, q, hpq⟩
        cases p with
        | nil => exact Or.inl ⟨q, by simpa using hpq⟩
        | cons x xs =>
            rcases List.cons_eq_cons.mp (by simpa using hpq) with ⟨rfl, h2⟩
            exact Or.inr ⟨xs, q, by simpa using h2⟩

theorem occursIn_iff (x s : String) :
    occursIn x s = true ↔ ∃ p q, s.data = p ++ x.data ++ q := hasSeg_iff x.data s.data

theorem occursIn_append_left {x b : String} (a : String) (h : occursIn x b = true) :
    occursIn x (a ++ b) = true := by
  rcases (occursIn_iff x b).mp h with ⟨p, q, hpq⟩
  exact (occursIn_iff x (a ++ b)).mpr ⟨a.data ++ p, q, by simp [strData_append, hpq]⟩

theorem occursIn_append_right {x a : String} (b : String) (h : occursIn x a = true) :
    occursIn x (a ++ b) = true := by
  rcases (occursIn_iff x a).mp h with ⟨p, q, hpq⟩
  exact (occursIn_iff x (a ++ b)).mpr ⟨p, q ++ b.data, by simp [strData_append, hpq]⟩

theorem occursIn_refl (x : String) : occursIn x x = true :=
  (occursIn_iff x x).mpr ⟨[], [], by simp⟩

theorem joinWith_cons (sep x : String) (xs : List String) :
    joinWith sep (x :: xs) = x ++ sep ++ joinWith sep xs ∨ (xs = [] ∧ joinWith sep [x] = x) := by
  cases xs with
  | nil => exact Or.inr ⟨rfl, rfl⟩
  | cons y ys => exact Or.inl rfl

theorem mem_joinWith_occursIn (sep e : String) : ∀ l : List String, e ∈ l →
    occursIn e (joinWith sep l) = true := by
  intro l
  induction l with
  | nil => intro h; cases h
  | cons x xs ih =>
      intro hmem
      rcases List.mem_cons.mp hmem with rfl | hmem2
      · cases xs with
        | nil => exact occursIn_refl e
        | cons y ys =>
            show occursIn e (e ++ sep ++ joinWith sep (y :: ys)) = true
            exact occursIn_append_right _ (occursIn_append_right _ (occursIn_refl e))
      · cases xs with
        | nil => cases hmem2
        | cons y ys =>
            show occursIn e (x ++ sep ++ joinWith sep (y :: ys)) = true
            exact occursIn_append_left _ (ih hmem2)

theorem lineCount_append (a b : String) :
    lineCount (a ++ b) = lineCount a + lineCount b - 1 := by
  simp [lineCount, strData_append, List.count_append]
  omega

theorem lineCount_pos (a : String) : 1 ≤ lineCount a := by
  simp [lineCount]

theorem lineCount_joinWith (x : String) : ∀ xs : List String,
    lineCount (joinWith "\n" (x :: xs)) = lineCount x + (xs.map lineCount).sum := by
  intro xs
  induction xs generalizing x with
  | nil => simp [joinWith]
  | cons y ys ih =>
      show lineCount (x ++ "\n" ++ joinWith "\n" (y :: ys)) = _
      rw [lineCount_append, lineCount_append, ih y]
      have h1 : lineCount "\n" = 2 := by decide
      have h2 : 1 ≤ lineCount x := lineCount_pos x
      have h3 : 1 ≤ lineCount y := lineCount_pos y
      simp only [List.map_cons, List.sum_cons]
      omega

-- ## Soundness of the `_find_bp` matcher

theorem takeDigits_sound : ∀ (n : Nat) (s d r : List Char), takeDigits n s = some (d, r) →
    s = d ++ r ∧ d.length = n ∧ d.all isDigitC = true := by
  intro n
  induction n with
  | zero =>
      intro s d r h
      simp only [takeDigits, Option.some.injEq, Prod.mk.injEq] at h
      rcases h with ⟨rfl, rfl⟩
      simp
  | succ m ih =>
      intro s d r h
      cases s with
      | nil => simp [takeDigits] at h
      | cons c s2 =>
          simp only [takeDigits] at h
          split_ifs at h with hc
          · rcases Option.map_eq_some'.mp h with ⟨⟨d2, r2⟩, hd2, heq⟩
            rcases ih s2 d2 r2 hd2 with ⟨hs, hlen, hall⟩
            simp only [Prod.mk.injEq] at heq
            rcases heq with ⟨rfl, rfl⟩
            refine ⟨by simp [hs], by simp [hlen], ?_⟩
            simp only [List.all_cons, Bool.and_eq_true]
            exact ⟨hc, hall⟩

theorem takeSpaces_sound : ∀ s : List Char,
    s = (takeSpaces s).1 ++ (takeSpaces s).2 ∧ (takeSpaces s).1.all isSpaceC = true := by
  intro s
  induction s with
  | nil => simp [takeSpaces]
  | cons c s2 ih =>
      by_cases hc : isSpaceC c = true
      · simp only [takeSpaces, hc, if_pos]
        refine ⟨by simpa using ih.1, ?_⟩
        simp only [List.all_cons, Bool.and_eq_true]
        exact ⟨hc, ih.2⟩
      · simp [takeSpaces, hc]

theorem matchTail2_sound (s d : List Char) (h : matchTail2 s = some d) :
    ∃ r, s = d ++ r ∧ d.all isDigitC = true ∧ (d.length = 2 ∨ d.length = 3) ∧
      boundaryOK r = true := by
  unfold matchTail2 at h
  rcases h3 : takeDigits 3 s with _ | ⟨d3, r3⟩ <;> simp only [h3] at h
  · rcases h2 : takeDigits 2 s with _ | ⟨d2, r2⟩ <;> simp only [h2] at h
    · exact Option.noConfusion h
    · split_ifs at h with hb
      rcases takeDigits_sound 2 s d2 r2 h2 with ⟨hs, hlen, hall⟩
      injection h with h
      subst h
      exact ⟨r2, hs, hall, Or.inl hlen, hb⟩
  · split_ifs at h with hb
    · rcases takeDigits_sound 3 s d3 r3 h3 with ⟨hs, hlen, hall⟩
      injection h with h
      subst h
      exact ⟨r3, hs, hall, Or.inr hlen, hb⟩
    · rcases h2 : takeDigits 2 s with _ | ⟨d2, r2⟩ <;> simp only [h2] at h
      · exact Option.noConfusion h
      · split_ifs at h with hb2
        rcases takeDigits_sound 2 s d2 r2 h2 with ⟨hs, hlen, hall⟩
        injection h with h
        subst h
        exact ⟨r2, hs, hall, Or.inl hlen, hb2⟩

/-- Shape of a raw `_find_bp` match, as the regex promises: a 2-3 digit group,
optional whitespace, a slash, optional whitespace, a 2-3 digit group, with the
two groups parsed as systolic/diastolic. -/
def RawShape (raw : List Char) (sys dia : Nat) : Prop :=
  ∃ d1 w1 w2 d2, raw = d1 ++ w1 ++ '/' :: (w2 ++ d2) ∧
    d1.all isDigitC = true ∧ d2.all isDigitC = true ∧
    (d1.length = 2 ∨ d1.length = 3) ∧ (d2.length = 2 ∨ d2.length = 3) ∧
    w1.all isSpaceC = true ∧ w2.all isSpaceC = true ∧
    sys = natOfDigits d1 ∧ dia = natOfDigits d2

theorem matchRest_sound (d1 s : List Char) (sys dia : Nat) (raw : List Char)
    (h : matchRest d1 s = some (sys, dia, raw)) :
    ∃ w1 w2 d2 tail, raw = d1 ++ w1 ++ '/' :: (w2 ++ d2) ∧
      s = w1 ++ '/' :: (w2 ++ (d2 ++ tail)) ∧
      w1.all isSpaceC = true ∧ w2.all isSpaceC = true ∧
      d2.all isDigitC = true ∧ (d2.length = 2 ∨ d2.length = 3) ∧
      sys = natOfDigits d1 ∧ dia = natOfDigits d2 := by
  unfold matchRest at h
  rcases hsp1 : takeSpaces s with ⟨w1, rest1⟩
  simp only [hsp1] at h
  rcases hrest1 : rest1 with _ | ⟨c, s2⟩ <;> simp only [hrest1] at h
  · exact Option.noConfusion h
  · split_ifs at h with hcslash
    subst hcslash
    rcases hsp2 : takeSpaces s2 with ⟨w2, rest2⟩
    simp only [hsp2] at h
    rcases hmt : matchTail2 rest2 with _ | d2 <;> simp only [hmt] at h
    · exact Option.noConfusion h
    · simp only [Option.some.injEq, Prod.mk.injEq] at h
      rcases h with ⟨rfl, rfl, rfl⟩
      rcases matchTail2_sound rest2 d2 hmt with ⟨tail, hrest2, hall2, hlen2, _⟩
      have hs1 := takeSpaces_sound s
      simp only [hsp1] at hs1
      have hs2 := takeSpaces_sound s2
      simp only [hsp2] at hs2
      refine ⟨w1, w2, d2, tail, rfl, ?_, hs1.2, hs2.2, hall2, hlen2, rfl, rfl⟩
      rw [hs1.1, hrest1, hs2.1, hrest2]

theorem matchAt_sound (s : List Char) (sys dia : Nat) (raw : List Char)
    (h : matchAt s = some (sys, dia, raw)) :
    (∃ tail, s = raw ++ tail) ∧ RawShape raw sys dia := by
  unfold matchAt at h
  rcases h3 : takeDigits 3 s with _ | ⟨d1, r⟩ <;> simp only [h3] at h
  · rcases h2 : takeDigits 2 s with _ | ⟨d1b, r2⟩ <;> simp only [h2] at h
    · exact Option.noConfusion h
    · rcases matchRest_sound d1b r2 sys dia raw h with
        ⟨w1, w2, d2, tail, hraw, hr2, hw1, hw2, hd2, hlen2, hsys, hdia⟩
      rcases takeDigits_sound 2 s d1b r2 h2 with ⟨hs, hlen1, hall1⟩
      refine ⟨⟨tail, ?_⟩, d1b, w1, w2, d2, hraw, hall1, hd2, Or.inl hlen1, hlen2,
        hw1, hw2, hsys, hdia⟩
      rw [hs, hr2, hraw]
      simp [List.append_assoc]
  · rcases hmr : matchRest d1 r with _ | m <;> simp only [hmr] at h
    · rcases h2 : takeDigits 2 s with _ | ⟨d1b, r2⟩ <;> simp only [h2] at h
      · exact Option.noConfusion h
      · rcases matchRest_sound d1b r2 sys dia raw h with
          ⟨w1, w2, d2, tail, hraw, hr2, hw1, hw2, hd2, hlen2, hsys, hdia⟩
        rcases takeDigits_sound 2 s d1b r2 h2 with ⟨hs, hlen1, hall1⟩
        refine ⟨⟨tail, ?_⟩, d1b, w1, w2, d2, hraw, hall1, hd2, Or.inl hlen1, hlen2,
          hw1, hw2, hsys, hdia⟩
        rw [hs, hr2, hraw]
        simp [List.append_assoc]
    · injection h with h
      subst h
      rcases matchRest_sound d1 r sys dia raw hmr with
        ⟨w1, w2, d2, tail, hraw, hr, hw1, hw2, hd2, hlen2, hsys, hdia⟩
      rcases takeDigits_sound 3 s d1 r h3 with ⟨hs, hlen1, hall1⟩
      refine ⟨⟨tail, ?_⟩, d1, w1, w2, d2, hraw, hall1, hd2, Or.inr hlen1, hlen2,
        hw1, hw2, hsys, hdia⟩
      rw [hs, hr, hraw]
      simp [List.append_assoc]

theorem searchBP_sound : ∀ (s : List Char) (prev : Bool) (sys dia : Nat) (raw : List Char),
    searchBP prev s = some (sys, dia, raw) →
    (∃ p q, s = p ++ raw ++ q) ∧ RawShape raw sys dia := by
  intro s
  induction s with
  | nil => intro prev sys dia raw h; exact Option.noConfusion h
  | cons c s2 ih =>
      intro prev sys dia raw h
      unfold searchBP at h
      rcases hm : (if prev then none else matchAt (c :: s2)) with _ | m <;> simp only [hm] at h
      · rcases ih (isWordC c) sys dia raw h with ⟨⟨p, q, hpq⟩, hshape⟩
        exact ⟨⟨c :: p, q, by simp [hpq, List.append_assoc]⟩, hshape⟩
      · injection h with h
        subst h
        have hmat : matchAt (c :: s2) = some (sys, dia, raw) := by
          by_cases hp : prev
          · rw [if_pos hp] at hm
            exact Option.noConfusion hm
          · rw [if_neg hp] at hm
            exact hm
        rcases matchAt_sound _ _ _ _ hmat with ⟨⟨tail, htail⟩, hshape⟩
        exact ⟨⟨[], tail, by simpa using htail⟩, hshape⟩

-- ## Leftmost-position characterization of the `re.search` scan

/-- The match attempt at offset `i` (with the leading `\b` checked through
`prev`), mirroring how `re.search` walks the string. -/
def bpAtAux : Bool → List Char → Nat → Option (Nat × Nat × List Char)
  | prev, s, 0 => if prev then none else matchAt s
  | _, [], _ + 1 => none
  | _, c :: s, i + 1 => bpAtAux (isWordC c) s i

/-- The `_find_bp` regex attempted at byte offset `i` of the note. -/
def bpAt (note : String) (i : Nat) : Option (Nat × Nat × List Char) :=
  bpAtAux false note.data i

theorem matchAt_nil : matchAt [] = none := rfl

theorem searchBP_none : ∀ (s : List Char) (prev : Bool), searchBP prev s = none →
    ∀ i, bpAtAux prev s i = none := by
  intro s
  induction s with
  | nil =>
      intro prev _ i
      cases i with
      | zero =>
          show (if prev then none else matchAt []) = none
          split_ifs <;> simp [matchAt_nil]
      | succ j => rfl
  | cons c s2 ih =>
      intro prev h i
      unfold searchBP at h
      rcases hm : (if prev then none else matchAt (c :: s2)) with _ | m <;> simp only [hm] at h
      · cases i with
        | zero => exact hm
        | succ j => exact ih (isWordC c) h j
      · exact Option.noConfusion h

theorem searchBP_some : ∀ (s : List Char) (prev : Bool) (m : Nat × Nat × List Char),
    searchBP prev s = some m →
    ∃ j, bpAtAux prev s j = some m ∧ ∀ k, k < j → bpAtAux prev s k = none := by
  intro s
  induction s with
  | nil => intro prev m h; exact Option.noConfusion h
  | cons c s2 ih =>
      intro prev m h
      unfold searchBP at h
      rcases hm : (if prev then none else matchAt (c :: s2)) with _ | m2 <;> simp only [hm] at h
      · rcases ih (isWordC c) m h with ⟨j, hj, hk⟩
        refine ⟨j + 1, hj, ?_⟩
        intro k hkj
        cases k with
        | zero => exact hm
        | succ k2 => exact hk k2 (by omega)
      · injection h with h
        subst h
        exact ⟨0, hm, by omega⟩

theorem searchBP_found (s : List Char) (prev : Bool) (i : Nat)
    (h : (bpAtAux prev s i).isSome = true) : (searchBP prev s).isSome = true := by
  rcases hs : searchBP prev s with _ | m
  · rw [searchBP_none s prev hs i] at h
    exact absurd h (by simp)
  · rfl

theorem find_bp_sound (note : String) (sys dia : Nat) (rawS : String)
    (h : _find_bp note = some (sys, dia, rawS)) :
    occursIn rawS note = true ∧ RawShape rawS.data sys dia := by
  unfold _find_bp at h
  rcases hs : searchBP false note.data with _ | ⟨a, b, raw⟩ <;> simp only [hs] at h
  · exact Option.noConfusion h
  · simp only [Option.map_some', Option.some.injEq, Prod.mk.injEq] at h
    rcases h with ⟨rfl, rfl, rfl⟩
    rcases searchBP_sound _ _ _ _ _ hs with ⟨⟨p, q, hpq⟩, hshape⟩
    exact ⟨(occursIn_iff _ _).mpr ⟨p, q, hpq⟩, hshape⟩

-- ## Characterizing the Risk Radar finding list

theorem mem_iteSingleton {α : Type} {f e : α} {c : Prop} [Decidable c]
    (h : f ∈ (if c then [e] else [])) : f = e := by
  split_ifs at h
  · simpa using h
  · simp at h

/-- Every finding is either the blood-pressure finding (carrying the raw
match) or one of the five fixed keyword findings. -/
theorem riskFindings_cases (note : String) (f : String × String × String)
    (hf : f ∈ riskFindings note) :
    (∃ sys dia raw, _find_bp note = some (sys, dia, raw) ∧
        f = ("Low blood pressure reading", "Evidence: \x27" ++ raw ++ "\x27",
          "monitor_closely")) ∨
      f ∈ ([("Dizziness on standing", "Evidence: \x27dizzy / standing\x27 mentioned",
              "monitor_closely"),
            ("Breathing difficulty", "Evidence: \x27short of breath\x27 mentioned",
              "consider_urgent"),
            ("Potential emergency symptom", "Evidence: chest pain/fainting mentioned",
              "consider_urgent"),
            ("Fall risk", "Evidence: fall/trip/walker mentioned", "monitor_closely"),
            ("Low hydration risk", "Evidence: low water intake mentioned", "monitor")] :
        List (String × String × String)) := by
  unfold riskFindings at hf
  rcases hbp : _find_bp note with _ | ⟨sys, dia, raw⟩ <;> simp only [hbp] at hf <;>
    simp only [List.mem_append] at hf
  · rcases hf with ((((hf | hf) | hf) | hf) | hf) | hf
    · simp at hf
    all_goals exact Or.inr (by rw [mem_iteSingleton hf]; simp)
  · rcases hf with ((((hf | hf) | hf) | hf) | hf) | hf
    · exact Or.inl ⟨sys, dia, raw, rfl, mem_iteSingleton hf⟩
    all_goals exact Or.inr (by rw [mem_iteSingleton hf]; simp)

theorem tagOf_riskFindings (note : String) (f : String × String × String)
    (hf : f ∈ riskFindings note) : (tagOf f.2.2).isSome = true := by
  rcases riskFindings_cases note f hf with ⟨sys, dia, raw, _, rfl⟩ | hmem
  · rfl
  · simp only [List.mem_cons, List.not_mem_nil, or_false] at hmem
    rcases hmem with rfl | rfl | rfl | rfl | rfl <;> rfl

theorem riskLines_total : ∀ l : List (String × String × String),
    (∀ f ∈ l, (tagOf f.2.2).isSome = true) → ∃ out, riskLines l = some out := by
  intro l
  induction l with
  | nil => exact fun _ => ⟨[], rfl⟩
  | cons x xs ih =>
      intro h
      obtain ⟨x1, x2, x3⟩ := x
      have hx := h _ (List.mem_cons_self _ _)
      rcases ht : tagOf x3 with _ | tag
      · rw [ht] at hx
        exact absurd hx (by simp)
      · rcases ih (fun f hf => h f (List.mem_cons_of_mem _ hf)) with ⟨out, hout⟩
        refine ⟨("- **" ++ x1 ++ "** — *" ++ tag ++ "*  \n  " ++ x2) :: out, ?_⟩
        simp [riskLines, ht, hout]

theorem demo_risk_radar_total (note : String) : ∃ out, demo_risk_radar note = some out := by
  rcases riskLines_total (riskFindings note) (fun f hf => tagOf_riskFindings note f hf) with
    ⟨r, hr⟩
  rcases hd : demo_risk_radar note with _ | out
  · exfalso
    unfold demo_risk_radar at hd
    simp only [hr] at hd
    exact Option.noConfusion hd
  · exact ⟨out, rfl⟩

-- ## The Care Circle message list

/-- Hypothesis isolating the one way a message entry can span lines: the raw
BP match may contain newlines (the regex `\s*` around the slash admits them). -/
def bpRawNewlineFree (note : String) : Bool :=
  match _find_bp note with
  | some (_, _, raw) => raw.data.count '\n' == 0
  | none => true

theorem careMsg_entries (note tone e : String) (he : e ∈ careMsg note tone) :
    e ∈ (["Quick update:",
          "- Had dizziness when standing today.",
          "- Missed at least one medication dose (noted).",
          "- Next steps: encourage fluids/food if appropriate, recheck BP later, and monitor symptoms.",
          "If symptoms worsen, we should contact clinician / consider urgent care."] :
        List String) ∨
      ∃ sys dia raw, _find_bp note = some (sys, dia, raw) ∧
        e = "- BP reading reported: " ++ raw ++ "." := by
  unfold careMsg at he
  rcases hbp : _find_bp note with _ | ⟨sys, dia, raw⟩ <;> simp only [hbp] at he <;>
    simp only [List.mem_append] at he
  · rcases he with ((((he | he) | he) | he) | he) | he
    · exact Or.inl (by simp only [List.mem_singleton] at he; simp [he])
    · exact Or.inl (by rw [mem_iteSingleton he]; simp)
    · simp at he
    · exact Or.inl (by rw [mem_iteSingleton he]; simp)
    · exact Or.inl (by simp only [List.mem_singleton] at he; simp [he])
    · exact Or.inl (by rw [mem_iteSingleton he]; simp)
  · rcases he with ((((he | he) | he) | he) | he) | he
    · exact Or.inl (by simp only [List.mem_singleton] at he; simp [he])
    · exact Or.inl (by rw [mem_iteSingleton he]; simp)
    · simp only [List.mem_singleton] at he
      exact Or.inr ⟨sys, dia, raw, rfl, he⟩
    · exact Or.inl (by rw [mem_iteSingleton he]; simp)
    · exact Or.inl (by simp only [List.mem_singleton] at he; simp [he])
    · exact Or.inl (by rw [mem_iteSingleton he]; simp)

theorem careMsg_length (note tone : String) : (careMsg note tone).length ≤ 6 := by
  unfold careMsg
  rcases hbp : _find_bp note with _ | m <;> simp only [hbp] <;> split_ifs <;>
    simp [List.length_append]

theorem lineCount_careMsg_entry (note tone e : String) (he : e ∈ careMsg note tone)
    (hnl : bpRawNewlineFree note = true) : lineCount e = 1 := by
  rcases careMsg_entries note tone e he with hfix | ⟨sys, dia, raw, hbp, rfl⟩
  · simp only [List.mem_cons, List.not_mem_nil, or_false] at hfix
    rcases hfix with rfl | rfl | rfl | rfl | rfl <;> rfl
  · unfold bpRawNewlineFree at hnl
    rw [hbp] at hnl
    have hraw : raw.data.count '\n' = 0 := by
      simpa using hnl
    have hdata : ("- BP reading reported: " ++ raw ++ ".").data =
        ("- BP reading reported: ").data ++ raw.data ++ (".").data := by
      simp [strData_append]
    simp only [lineCount, hdata, List.count_append, hraw]
    rfl

theorem sum_lineCount_ones : ∀ l : List String, (∀ e ∈ l, lineCount e = 1) →
    (l.map lineCount).sum = l.length := by
  intro l
  induction l with
  | nil => intro _; rfl
  | cons x xs ih =>
      intro h
      simp only [List.map_cons, List.sum_cons, List.length_cons,
        h x (List.mem_cons_self _ _), ih (fun e he => h e (List.mem_cons_of_mem _ he))]
      omega

theorem careBody_lineCount (note tone : String) (hnl : bpRawNewlineFree note = true) :
    lineCount (careBody note tone) ≤ 7 := by
  have hlen := careMsg_length note tone
  have htake : (careMsg note tone).take 7 = careMsg note tone :=
    List.take_of_length_le (by omega)
  unfold careBody
  rw [htake]
  obtain ⟨rest, hrest⟩ : ∃ rest, careMsg note tone = "Quick update:" :: rest := ⟨_, rfl⟩
  rw [hrest, lineCount_joinWith]
  have hall : ∀ e ∈ rest, lineCount e = 1 := fun e he =>
    lineCount_careMsg_entry note tone e (by rw [hrest]; exact List.mem_cons_of_mem _ he) hnl
  rw [sum_lineCount_ones rest hall]
  have h1 : lineCount "Quick update:" = 1 := by decide
  have h2 : rest.length ≤ 5 := by
    rw [hrest] at hlen
    simpa using hlen
  omega

-- ## The code-point order used by Python's `sorted`

theorem strLtL_asym : ∀ a b : List Char, strLtL a b = true → strLtL b a = false := by
  intro a
  induction a with
  | nil =>
      intro b h
      cases b with
      | nil => simp [strLtL] at h
      | cons y ys => simp [strLtL]
  | cons x xs ih =>
      intro b h
      cases b with
      | nil => simp [strLtL] at h
      | cons y ys =>
          simp only [strLtL] at h ⊢
          split_ifs at h ⊢ <;>
            first
              | rfl
              | omega
              | simp at h
              | exact ih ys h

theorem strLtL_not_trans : ∀ a b c : List Char,
    strLtL a b = false → strLtL b c = false → strLtL a c = false := by
  intro a
  induction a with
  | nil =>
      intro b c hab hbc
      cases b with
      | nil =>
          cases c with
          | nil => rfl
          | cons z zs => simp [strLtL] at hbc
      | cons y ys => simp [strLtL] at hab
  | cons x xs ih =>
      intro b c hab hbc
      cases b with
      | nil =>
          cases c with
          | nil => rfl
          | cons z zs => simp [strLtL] at hbc
      | cons y ys =>
          cases c with
          | nil => rfl
          | cons z zs =>
              simp only [strLtL] at hab hbc ⊢
              split_ifs at hab hbc ⊢ <;>
                first
                  | rfl
                  | omega
                  | simp at hab
                  | simp at hbc
                  | exact ih ys zs hab hbc

instance : IsTotal String (fun a b => strLe a b = true) := by
  constructor
  intro a b
  simp only [strLe, Bool.not_eq_true']
  by_cases h : strLtL b.data a.data = true
  · exact Or.inr (strLtL_asym _ _ h)
  · exact Or.inl (by simpa using h)

instance : IsTrans String (fun a b => strLe a b = true) := by
  constructor
  intro a b c hab hbc
  simp only [strLe, Bool.not_eq_true'] at hab hbc ⊢
  exact strLtL_not_trans c.data b.data a.data hbc hab

theorem joinWith_mem_parts (sep e : String) : ∀ l : List String, e ∈ l →
    ∃ p q, (joinWith sep l).data = p ++ e.data ++ q := by
  intro l
  induction l with
  | nil => intro h; cases h
  | cons y ys ih =>
      intro hmem
      rcases List.mem_cons.mp hmem with rfl | h2
      · cases ys with
        | nil => exact ⟨[], [], by simp [joinWith]⟩
        | cons z zs =>
            exact ⟨[], sep.data ++ (joinWith sep (z :: zs)).data, by
              simp [joinWith, strData_append, List.append_assoc]⟩
      · cases ys with
        | nil => cases h2
        | cons z zs =>
            rcases ih h2 with ⟨p, q, hpq⟩
            exact ⟨y.data ++ sep.data ++ p, q, by
              simp [joinWith, strData_append, hpq, List.append_assoc]⟩

theorem occursIn_in_elem (sep x e : String) (l : List String) (he : e ∈ l)
    (hx : occursIn x e = true) : occursIn x (joinWith sep l) = true := by
  rcases joinWith_mem_parts sep e l he with ⟨p, q, hpq⟩
  rcases (occursIn_iff x e).mp hx with ⟨p2, q2, hp2⟩
  refine (occursIn_iff _ _).mpr ⟨p ++ p2, q2 ++ q, ?_⟩
  rw [hpq, hp2]
  simp [List.append_assoc]

-- ## The Wellbeing strain-cue list

theorem strainCues_sorted (t : String) :
    List.Sorted (fun a b : String => strLe a b = true) (strainCues t) :=
  List.sorted_insertionSort _ _

theorem strainCues_nodup (t : String) : (strainCues t).Nodup :=
  (List.perm_insertionSort _ _).nodup_iff.mpr (List.nodup_dedup _)

theorem strainCues_mem (t p : String) :
    p ∈ strainCues t ↔ p ∈ burnout_phrases_list ∧ occursIn p (lowerStr t) = true := by
  unfold strainCues sortedSet _contains_any
  rw [(List.perm_insertionSort _ _).mem_iff, List.mem_dedup, List.mem_filter, lowerStr_idem]

theorem strainCues_nil (t : String) (h : strainCues t = []) :
    _contains_any (lowerStr t) burnout_phrases_list = [] := by
  have hperm := List.perm_insertionSort (fun a b : String => strLe a b = true)
      (_contains_any (lowerStr t) burnout_phrases_list).dedup
  unfold strainCues sortedSet at h
  rw [h] at hperm
  exact (List.dedup_eq_nil _).mp (hperm.symm.eq_nil)

theorem wellbeing_none_line (t : String) (h : strainCues t = []) :
    occursIn "- No explicit caregiver strain language detected in the note."
      (demo_caregiver_wellbeing t) = true := by
  have hc := strainCues_nil t h
  unfold demo_caregiver_wellbeing
  simp only [hc]
  apply mem_joinWith_occursIn
  simp

theorem joinWith_cons_data (sep x : String) (xs : List String) :
    ∃ r : List Char, (joinWith sep (x :: xs)).data = x.data ++ r := by
  cases xs with
  | nil => exact ⟨[], by simp [joinWith]⟩
  | cons y ys =>
      exact ⟨sep.data ++ (joinWith sep (y :: ys)).data, by
        simp [joinWith, strData_append, List.append_assoc]⟩

theorem careCircle_pos (note audience tone : String) :
    0 < (demo_care_circle_msg note audience tone).data.length := by
  unfold demo_care_circle_msg
  rcases joinWith_cons_data "\n" "## 👥 Care Circle Message (Demo Mode)"
      ["**Audience:** " ++ audience ++ " | **Tone:** " ++ tone, "", careBody note tone] with
    ⟨r, hr⟩
  rw [hr]
  simp [List.length_append]

-- # Claims

/-- C1 counterexample: the note "drank less" produces exactly one finding, of
severity `monitor`, yet the aggregated urgency is "low", not "moderate" — the
code (src/app.py line 111) only escalates to moderate on `monitor_closely`. -/
theorem c1_counterexample :
    riskFindings "drank less" =
      [("Low hydration risk", "Evidence: low water intake mentioned", "monitor")] ∧
    urgencyOf (riskFindings "drank less") = "low" ∧
    urgencyOf (riskFindings "drank less") ≠ "moderate" := by decide

/-- C1 (amended): for every note whose finding list is non-empty and contains
only `monitor`-severity findings, the reported urgency level is "low" — the
`moderate` escalation fires only on a `monitor_closely` finding. -/
theorem c1_monitor_only_low (note : String) (h1 : riskFindings note ≠ [])
    (h2 : ∀ f ∈ riskFindings note, f.2.2 = "monitor") :
    urgencyOf (riskFindings note) = "low" := by
  have hne : (riskFindings note).isEmpty = false := by
    simpa [List.isEmpty_iff] using h1
  have ha : (riskFindings note).any (fun r => r.2.2 = "monitor_closely") = false := by
    by_cases hb : (riskFindings note).any (fun r => r.2.2 = "monitor_closely") = true
    · exfalso
      rcases List.any_eq_true.mp hb with ⟨f, hf, hp⟩
      simp only [decide_eq_true_eq] at hp
      rw [h2 f hf] at hp
      exact absurd hp (by decide)
    · rw [Bool.not_eq_true] at hb
      exact hb
  have hc : (riskFindings note).any (fun r => r.2.2 = "consider_urgent") = false := by
    by_cases hb : (riskFindings note).any (fun r => r.2.2 = "consider_urgent") = true
    · exfalso
      rcases List.any_eq_true.mp hb with ⟨f, hf, hp⟩
      simp only [decide_eq_true_eq] at hp
      rw [h2 f hf] at hp
      exact absurd hp (by decide)
    · rw [Bool.not_eq_true] at hb
      exact hb
  simp [urgencyOf, hne, ha, hc]

/-- C1 witness: the amended statement at the concrete note "drank less". -/
theorem c1_monitor_only_low_witness : urgencyOf (riskFindings "drank less") = "low" :=
  c1_monitor_only_low "drank less" (by decide) (by decide)

/-- C2 (code bug): evaluated at the empty note — which mentions no fatigue, no
hydration and no mood — the heuristic Doctor Brief still asserts increased
fatigue, reduced hydration and a withdrawn mood in its fixed summary template,
contradicting the traceability invariant (and the app's own safety text
"Uses only what's in the note/context", src/app.py line 40). -/
theorem c2_brief_invents_facts :
    occursIn "increased fatigue" (demo_doctor_brief "") = true ∧
    occursIn "Hydration appears reduced" (demo_doctor_brief "") = true ∧
    occursIn "Mood described as lower/withdrawn" (demo_doctor_brief "") = true ∧
    occursIn "fatigue" "" = false ∧
    occursIn "hydration" "" = false ∧
    occursIn "mood" "" = false := by decide

/-- C3 counterexample: "1234/56" contains a match of the spec's bare pattern
`\d{2,3}/\d{2,3}` (namely "234/56"), yet `_find_bp` fails, because the code's
regex brackets the digit groups with `\b` word boundaries. -/
theorem c3_counterexample :
    specBPExists ("1234/56").data = true ∧ _find_bp "1234/56" = none := by decide

/-- C3 (amended): for every note on which the code's actual pattern
`\b(\d{2,3})\s*/\s*(\d{2,3})\b` matches at some offset `i`, extraction
succeeds with the match of the leftmost matching offset `j ≤ i`: the returned
raw text occurs verbatim in the note, no earlier offset matches, and the raw
text parses as 2-3 digit systolic/diastolic groups around the slash (the
returned numbers being their values); any later BP mention is ignored. -/
theorem c3_first_match_verbatim (note : String) (i : Nat)
    (h : (bpAt note i).isSome = true) :
    ∃ sys dia raw j, _find_bp note = some (sys, dia, raw) ∧ j ≤ i ∧
      bpAt note j = some (sys, dia, raw.data) ∧
      (∀ k, k < j → bpAt note k = none) ∧
      occursIn raw note = true ∧ RawShape raw.data sys dia := by
  have hsome := searchBP_found note.data false i h
  rcases hs : searchBP false note.data with _ | ⟨sys, dia, rawL⟩
  · rw [hs] at hsome
    exact absurd hsome (by simp)
  · rcases searchBP_some note.data false _ hs with ⟨j, hj, hk⟩
    have hji : j ≤ i := by
      by_contra hgt
      push_neg at hgt
      have hz : bpAt note i = none := hk i hgt
      rw [hz] at h
      exact absurd h (by simp)
    rcases searchBP_sound note.data false sys dia rawL hs with ⟨⟨p, q, hpq⟩, hshape⟩
    refine ⟨sys, dia, String.mk rawL, j, ?_, hji, hj, hk, ?_, hshape⟩
    · unfold _find_bp
      rw [hs]
      rfl
    · exact (occursIn_iff _ _).mpr ⟨p, q, hpq⟩

/-- C3 witness: the amended statement at the note "bp 92/58", whose pattern
matches at offset 3. -/
theorem c3_first_match_verbatim_witness :
    ∃ sys dia raw j, _find_bp "bp 92/58" = some (sys, dia, raw) ∧ j ≤ 3 ∧
      bpAt "bp 92/58" j = some (sys, dia, raw.data) ∧
      (∀ k, k < j → bpAt "bp 92/58" k = none) ∧
      occursIn raw "bp 92/58" = true ∧ RawShape raw.data sys dia :=
  c3_first_match_verbatim "bp 92/58" 3 (by decide)

/-- C4 counterexample: the note "lightheaded" yields exactly the dizziness
finding, whose evidence text quotes "dizzy / standing" — text that does not
occur in the note, refuting the claim that evidence quotes are verbatim. -/
theorem c4_counterexample :
    riskFindings "lightheaded" =
      [("Dizziness on standing", "Evidence: \x27dizzy / standing\x27 mentioned",
        "monitor_closely")] ∧
    occursIn "dizzy / standing" "lightheaded" = false ∧
    occursIn "Evidence: \x27dizzy / standing\x27 mentioned" "lightheaded" = false := by decide

/-- C4 (amended): every Risk Radar signal is a (title, evidence, severity)
triple whose severity maps to one of the three human-readable labels; only
the blood-pressure finding embeds note text verbatim (the raw regex match),
while the five keyword findings carry fixed evidence descriptions. -/
theorem c4_signal_shape (note : String) (f : String × String × String)
    (hf : f ∈ riskFindings note) :
    (∃ tag, tagOf f.2.2 = some tag ∧
        tag ∈ (["Monitor", "Monitor closely", "Consider urgent care"] : List String)) ∧
      ((∃ sys dia raw, _find_bp note = some (sys, dia, raw) ∧
          f = ("Low blood pressure reading", "Evidence: \x27" ++ raw ++ "\x27",
            "monitor_closely") ∧ occursIn raw note = true) ∨
        f ∈ ([("Dizziness on standing", "Evidence: \x27dizzy / standing\x27 mentioned",
                "monitor_closely"),
              ("Breathing difficulty", "Evidence: \x27short of breath\x27 mentioned",
                "consider_urgent"),
              ("Potential emergency symptom", "Evidence: chest pain/fainting mentioned",
                "consider_urgent"),
              ("Fall risk", "Evidence: fall/trip/walker mentioned", "monitor_closely"),
              ("Low hydration risk", "Evidence: low water intake mentioned", "monitor")] :
          List (String × String × String))) := by
  rcases riskFindings_cases note f hf with ⟨sys, dia, raw, hbp, rfl⟩ | hmem
  · exact ⟨⟨"Monitor closely", rfl, by simp⟩,
      Or.inl ⟨sys, dia, raw, hbp, rfl, (find_bp_sound note sys dia raw hbp).1⟩⟩
  · have hm2 := hmem
    simp only [List.mem_cons, List.not_mem_nil, or_false] at hm2
    rcases hm2 with rfl | rfl | rfl | rfl | rfl <;>
      exact ⟨⟨_, rfl, by simp⟩, Or.inr (by simp)⟩

/-- C4 witness: the amended statement at the note "lightheaded" and its
dizziness finding. -/
theorem c4_signal_shape_witness :
    (∃ tag, tagOf ("Dizziness on standing",
        "Evidence: \x27dizzy / standing\x27 mentioned", "monitor_closely").2.2 = some tag ∧
        tag ∈ (["Monitor", "Monitor closely", "Consider urgent care"] : List String)) ∧
      ((∃ sys dia raw, _find_bp "lightheaded" = some (sys, dia, raw) ∧
          ("Dizziness on standing", "Evidence: \x27dizzy / standing\x27 mentioned",
            "monitor_closely") =
            ("Low blood pressure reading", "Evidence: \x27" ++ raw ++ "\x27",
              "monitor_closely") ∧ occursIn raw "lightheaded" = true) ∨
        ("Dizziness on standing", "Evidence: \x27dizzy / standing\x27 mentioned",
            "monitor_closely") ∈
          ([("Dizziness on standing", "Evidence: \x27dizzy / standing\x27 mentioned",
              "monitor_closely"),
            ("Breathing difficulty", "Evidence: \x27short of breath\x27 mentioned",
              "consider_urgent"),
            ("Potential emergency symptom", "Evidence: chest pain/fainting mentioned",
              "consider_urgent"),
            ("Fall risk", "Evidence: fall/trip/walker mentioned", "monitor_closely"),
            ("Low hydration risk", "Evidence: low water intake mentioned", "monitor")] :
            List (String × String × String))) :=
  c4_signal_shape "lightheaded"
    ("Dizziness on standing", "Evidence: \x27dizzy / standing\x27 mentioned",
      "monitor_closely") (by decide)

/-- C5: when the model path is attempted (availability holds) and the model
call fails, the dispatch helper returns the heuristic output exactly when the
lowered error text contains one of the known quota/rate-limit substrings
("insufficient_quota", "exceeded your current quota", "429"); every other
failure is re-raised to the caller with no fallback. -/
theorem c5_quota_fallback (mode : String) (loaded : Bool) (key e demoOut : String)
    (h : llm_available mode loaded key = true) :
    call_llm_or_demo mode loaded key (LLMResult.failure e) (some demoOut) =
      (if isQuotaError e then some (Except.ok demoOut) else some (Except.error e)) := by
  unfold call_llm_or_demo
  rw [h]
  simp

/-- C5 witness: a quota-classified failure on an available model path falls
back to the heuristic output. -/
theorem c5_quota_fallback_witness :
    call_llm_or_demo "Auto (OpenAI if available, else Demo Mode)" true "k"
        (LLMResult.failure "Error code: 429") (some "demo") =
      (if isQuotaError "Error code: 429" then some (Except.ok "demo")
       else some (Except.error "Error code: 429")) :=
  c5_quota_fallback "Auto (OpenAI if available, else Demo Mode)" true "k" "Error code: 429"
    "demo" (by decide)

/-- C6: when the run mode forces Demo Mode, dispatch returns the matching
heuristic generator's output on the same arguments, irrespective of the
provider library flag, the credential, and the model outcome; and the model
path is available exactly when the mode is not forced, the library loaded,
and the credential non-empty. -/
theorem c6_forced_demo (k : ReportKind) (mode : String) (loaded : Bool) (key : String)
    (res : LLMResult) (note audience tone caregiver_note : String) :
    (startsW "Force Demo" mode = true →
      dispatch k mode loaded key res note audience tone caregiver_note =
        (demoReport k note audience tone caregiver_note).map Except.ok) ∧
    (llm_available mode loaded key = true ↔
      (startsW "Force Demo" mode = false ∧ loaded = true ∧ key ≠ "")) := by
  constructor
  · intro hforce
    have hav : llm_available mode loaded key = false := by
      unfold llm_available
      rw [hforce]
      simp
    unfold dispatch call_llm_or_demo
    rw [hav]
    simp
  · unfold llm_available
    split_ifs with hf hl
    · simp [hf]
    · rw [Bool.not_eq_true] at hf
      simp only [Bool.not_eq_true'] at hl
      simp [hf, hl]
    · rw [Bool.not_eq_true] at hf
      rw [Bool.not_eq_true] at hl
      simp only [Bool.not_eq_false'] at hl
      simp [hf, hl]

/-- C6 witness: with forced Demo Mode, a loaded provider, a present credential
and a failing model outcome, dispatch still returns the Action Planner
heuristic output. -/
theorem c6_forced_demo_witness :
    dispatch ReportKind.actionPlanner "Force Demo Mode (no API)" true "sk-test"
        (LLMResult.failure "boom") "" "" "" "" =
      (demoReport ReportKind.actionPlanner "" "" "" "").map Except.ok :=
  (c6_forced_demo ReportKind.actionPlanner "Force Demo Mode (no API)" true "sk-test"
    (LLMResult.failure "boom") "" "" "" "").1 (by decide)

/-- C7: the heuristic path is total and degrades to fallbacks: the Risk Radar
generator (the only one whose rendering performs a fallible dict lookup)
succeeds on every note; and on the empty note each of the five generators
produces non-empty structured text in which the generic fallback bullets and
phrases appear ("No clear risk signals", the three Action Planner bucket
fallbacks, the "not provided"/"not reported" Doctor Brief phrases, the
Care Circle header, the Wellbeing "No explicit caregiver strain language"
line); the two extractors return `none` rather than failing on "". -/
theorem c7_generators_total :
    (∀ note, ∃ out, demo_risk_radar note = some out) ∧
    ((demo_risk_radar "").isSome = true ∧
      occursIn "- No clear risk signals detected from the note."
        ((demo_risk_radar "").getD "") = true ∧
      0 < ((demo_risk_radar "").getD "").data.length) ∧
    (occursIn "- Ensure comfort and safety; address immediate needs."
        (demo_action_planner "") = true ∧
      occursIn "- Track symptoms + timing through the day." (demo_action_planner "") = true ∧
      occursIn "- Confirm meds taken/missed and any measurements taken."
        (demo_action_planner "") = true ∧
      0 < (demo_action_planner "").data.length) ∧
    (occursIn "BP: not provided" (demo_doctor_brief "") = true ∧
      occursIn "Dizziness: not reported" (demo_doctor_brief "") = true ∧
      occursIn "Missed medication dose: not reported" (demo_doctor_brief "") = true ∧
      0 < (demo_doctor_brief "").data.length) ∧
    (∀ audience tone, 0 < (demo_care_circle_msg "" audience tone).data.length) ∧
    occursIn "Quick update:"
      (demo_care_circle_msg "" "Family group chat" "Neutral + factual") = true ∧
    (occursIn "- No explicit caregiver strain language detected in the note."
        (demo_caregiver_wellbeing "") = true ∧
      0 < (demo_caregiver_wellbeing "").data.length) ∧
    _find_bp "" = none ∧ _find_temp "" = none :=
  ⟨demo_risk_radar_total, by decide, by decide, by decide, careCircle_pos "",
    by decide, by decide, by decide, by decide⟩

/-- C8 counterexample: the regex `\s*` around the slash lets the raw BP match
span newlines, so for this note (dizziness + missed dose + a BP reading split
across three newlines) with an urgent tone, the rendered Care Circle body has
9 newline-separated lines — more than 7 — even though the entry list was
"truncated" to 7 entries. -/
theorem c8_counterexample :
    7 < lineCount (careBody "dizzy missed bp 92\n\n\n/58" "Urgent (only if needed)") ∧
    lineCount (careBody "dizzy missed bp 92\n\n\n/58" "Urgent (only if needed)") = 9 := by
  decide

/-- C8 (amended): for every note and tone, provided the raw BP match (when one
exists) contains no newline character — every other entry is a fixed
single-line string — the Care Circle message body has at most 7 lines; the
entry list itself never exceeds 6 entries, so the `[:7]` cut drops nothing. -/
theorem c8_body_line_cap (note tone : String) (hnl : bpRawNewlineFree note = true) :
    lineCount (careBody note tone) ≤ 7 ∧ (careMsg note tone).length ≤ 6 :=
  ⟨careBody_lineCount note tone hnl, careMsg_length note tone⟩

/-- C8 witness: the amended statement at a note whose BP match is single-line,
with all conditional bullets and the urgent line firing. -/
theorem c8_body_line_cap_witness :
    lineCount (careBody "felt dizzy, missed meds, bp 92/58" "Urgent (only if needed)") ≤ 7 ∧
    (careMsg "felt dizzy, missed meds, bp 92/58" "Urgent (only if needed)").length ≤ 6 :=
  c8_body_line_cap "felt dizzy, missed meds, bp 92/58" "Urgent (only if needed)" (by decide)

/-- C9: the Wellbeing strain-signal list is sorted in code-point order,
duplicate-free, and contains exactly the fixed strain phrases occurring
case-insensitively in the input; "tired tired stressed" yields exactly
["stress", "tired"]; and whenever the list is empty the report renders the
fixed no-strain-detected line instead. -/
theorem c9_strain_signals :
    (∀ t : String, List.Sorted (fun a b : String => strLe a b = true) (strainCues t) ∧
      (strainCues t).Nodup ∧
      (∀ p, p ∈ strainCues t ↔ p ∈ burnout_phrases_list ∧ occursIn p (lowerStr t) = true)) ∧
    strainCues "tired tired stressed" = ["stress", "tired"] ∧
    (∀ t : String, strainCues t = [] →
      occursIn "- No explicit caregiver strain language detected in the note."
        (demo_caregiver_wellbeing t) = true) :=
  ⟨fun t => ⟨strainCues_sorted t, strainCues_nodup t, fun p => strainCues_mem t p⟩,
    by decide, fun t h => wellbeing_none_line t h⟩

/-- C9 witness: the empty input has no strain cues and its report carries the
no-strain-detected line. -/
theorem c9_strain_signals_witness :
    occursIn "- No explicit caregiver strain language detected in the note."
      (demo_caregiver_wellbeing "") = true :=
  c9_strain_signals.2.2 "" (by decide)

/-- C10: the Care Circle entry list assembled before truncation has at most 6
entries (header, at most three conditional bullets, the constant next-steps
bullet, at most one urgent bullet), so the `[:7]` truncation removes nothing
and the body equals the join of the whole list; and whenever the tone begins
case-insensitively with "urgent", the urgent-contact line appears in the
output message. -/
theorem c10_no_truncation (note audience tone : String) :
    (careMsg note tone).length ≤ 6 ∧
    (careMsg note tone).take 7 = careMsg note tone ∧
    careBody note tone = joinWith "\n" (careMsg note tone) ∧
    (startsW "urgent" (lowerStr tone) = true →
      occursIn "If symptoms worsen, we should contact clinician / consider urgent care."
        (demo_care_circle_msg note audience tone) = true) := by
  have hlen := careMsg_length note tone
  have htake : (careMsg note tone).take 7 = careMsg note tone :=
    List.take_of_length_le (by omega)
  refine ⟨hlen, htake, by unfold careBody; rw [htake], ?_⟩
  intro hurgent
  have hmem : "If symptoms worsen, we should contact clinician / consider urgent care." ∈
      careMsg note tone := by
    unfold careMsg
    simp [hurgent]
  have hbody : occursIn
      "If symptoms worsen, we should contact clinician / consider urgent care."
      (careBody note tone) = true := by
    unfold careBody
    rw [htake]
    exact mem_joinWith_occursIn _ _ _ hmem
  unfold demo_care_circle_msg
  exact occursIn_in_elem _ _ _ _ (by simp) hbody

/-- C10 witness: an urgent tone on the empty note produces the urgent-contact
line in the output. -/
theorem c10_no_truncation_witness :
    occursIn "If symptoms worsen, we should contact clinician / consider urgent care."
      (demo_care_circle_msg "" "Family group chat" "Urgent (only if needed)") = true :=
  (c10_no_truncation "" "Family group chat" "Urgent (only if needed)").2.2.2 (by decide)
